import Mathlib

/-!
Verification of the gpt-engineer web backend (FastAPI + Peewee + gpt-engineer
toolkit) against its natural-language specification.  The Python sources under
`src/` are shallowly embedded below: pure fragments become Lean functions,
handler bodies become functions from their inputs (and the relevant bits of
filesystem / environment state, passed explicitly) to their results, and the
filesystem side effects of a handler are returned as explicit action lists.
-/

namespace GptEng

/-! ## Generic list-of-characters utilities (Python `str` operations) -/

/-- Boolean test that `pat` is a prefix of `s` (character lists). -/
def startsWithL : List Char → List Char → Bool
  | [], _ => true
  | _ :: _, [] => false
  | a :: as, b :: bs => a == b && startsWithL as bs

/-- Python `pat in s` (substring containment) on character lists.
Note `containsSubL [] s = true`, matching Python's `"" in s`. -/
def containsSubL (pat : List Char) : List Char → Bool
  | [] => startsWithL pat []
  | c :: t => startsWithL pat (c :: t) || containsSubL pat t

/-- Python `pat in s` on strings. -/
def strContainsSub (s pat : String) : Bool :=
  containsSubL pat.data s.data

/-- Python `s.find(pat)` restricted to the case where `pat` occurs in `s`
(the callers in the embedded code only evaluate it under that guard):
index of the first occurrence of `pat` in `s`. -/
def firstIdxL (pat : List Char) : List Char → Nat
  | [] => 0
  | c :: t => if startsWithL pat (c :: t) then 0 else firstIdxL pat t + 1

/-- Python `s.replace("..", "")`: delete the non-overlapping occurrences of
`".."`, scanning left to right.  This is the "path traversal" guard used by
the three file handlers of `src/routes/project.py` (lines 99, 141, 178). -/
def stripDotDot : List Char → List Char
  | [] => []
  | [c] => [c]
  | c₁ :: c₂ :: t =>
    if c₁ = '.' ∧ c₂ = '.' then stripDotDot t
    else c₁ :: stripDotDot (c₂ :: t)

/-- String version of `stripDotDot`. -/
def stripDotDotS (s : String) : String :=
  String.mk (stripDotDot s.data)

/-- Python `pathlib` `/` on POSIX: `base / rel` returns `rel` unchanged when
`rel` is absolute, returns `base` when `rel` is empty, and otherwise joins
with a slash.  (Normalisation of duplicate slashes is irrelevant to the
inputs considered here.) -/
def pathJoin (base rel : String) : String :=
  if rel.data = [] then base
  else if startsWithL ['/'] rel.data then rel
  else base ++ "/" ++ rel

/-! ## C1: the per-project file handlers of src/routes/project.py

`get_file_content` (lines 90-125), `update_file_content` (lines 128-166) and
`delete_file` (lines 169-219) all compute the target path the same way:
`file_path = file_path.replace("..", "")` followed by
`full_file_path = Path(f"projects/{project_id}") / file_path`. -/

/-- Target path computed by all three file handlers from the client-supplied
`file_path` query parameter. -/
def resolvedFilePath (projectId filePath : String) : String :=
  pathJoin ("projects/" ++ projectId) (stripDotDotS filePath)

/-- Boolean test that `path` lies strictly inside the per-project directory
`projects/{projectId}`. -/
def insideProjectDir (projectId path : String) : Bool :=
  startsWithL ("projects/" ++ projectId ++ "/").data path.data

/-- C1: the claim states that no choice of the `file_path` query parameter
makes the three file handlers access a file outside `projects/{project_id}`.
The guard `file_path.replace("..", "")` does not protect against absolute
paths: `Path("projects/p") / "/etc/passwd"` is `/etc/passwd`, so each handler
reads/writes/deletes `/etc/passwd`, outside the project directory.  This
theorem evaluates the embedded path computation at that failing input. -/
theorem C1_path_escape_eval :
    resolvedFilePath "p" "/etc/passwd" = "/etc/passwd" ∧
    insideProjectDir "p" (resolvedFilePath "p" "/etc/passwd") = false := by
  constructor <;> decide

/-! ## C9: get_file_content on a file that is not valid UTF-8 -/

/-- Response body of a successful `GET /api/project/{project_id}/file`.
The non-binary branch of the handler omits the `is_binary` key; this is
modelled as `is_binary = false`. -/
structure FileContentResponse where
  project_id : String
  file_path : String
  content : String
  is_binary : Bool
  deriving DecidableEq

/-- Result of a FastAPI handler: either a returned value or a raised
`HTTPException` with a status code and a detail string. -/
inductive FileHandlerResult where
  | ok (resp : FileContentResponse)
  | httpError (statusCode : Nat) (detail : String)
  deriving DecidableEq

/-- Outcome of `open(full_file_path, "r", encoding="utf-8")` + `f.read()`:
the decoded text, a `UnicodeDecodeError`, or any other exception. -/
inductive ReadOutcome where
  | utf8Text (s : String)
  | undecodable
  | readError (msg : String)
  deriving DecidableEq

/-- A filesystem write performed by a handler. -/
structure FsWrite where
  path : String
  content : String
  deriving DecidableEq

/-- Placeholder content returned for binary files by `get_file_content`. -/
def binaryPlaceholder : String := "[二进制文件，无法显示内容]"

/-- Embedding of `get_file_content` (src/routes/project.py lines 90-125).
`projectExists` models `Path(f"projects/{project_id}").exists()`,
`fileExistsIsFile` models `full_file_path.exists() and
full_file_path.is_file()`, and `read` models the outcome of reading the file
as UTF-8 text.  The second component lists the filesystem writes the handler
performs (none, in every branch). -/
def get_file_content (projectId filePath : String)
    (projectExists fileExistsIsFile : Bool) (read : ReadOutcome) :
    FileHandlerResult × List FsWrite :=
  if projectExists = false then
    (.httpError 404 ("项目 " ++ projectId ++ " 不存在"), [])
  else
    let fp := stripDotDotS filePath
    if fileExistsIsFile = false then
      (.httpError 404 ("文件 " ++ fp ++ " 不存在"), [])
    else
      match read with
      | .utf8Text s => (.ok ⟨projectId, fp, s, false⟩, [])
      | .undecodable => (.ok ⟨projectId, fp, binaryPlaceholder, true⟩, [])
      | .readError m => (.httpError 500 ("读取文件内容失败: " ++ m), [])

/-- C9: for every existing file whose bytes cannot be decoded as UTF-8, the
handler returns a successful (non-error) response with `is_binary = true` and
the fixed placeholder string as content, raises no HTTP error, and performs
no filesystem write (the file on disk is left unchanged). -/
theorem C9_undecodable_file_is_binary_response (pid fp : String) :
    get_file_content pid fp true true .undecodable =
      (.ok ⟨pid, stripDotDotS fp, binaryPlaceholder, true⟩, []) := by
  rfl

/-! ## C10: CodeGenerator.delete_file (src/routes/websocket_api.py 126-153) -/

/-- Outcome of one of the five fallback deletion methods
(`_delete_with_os_remove`, `_delete_with_path_unlink`,
`_delete_with_empty_file`, `_delete_with_system_command`,
`_delete_with_wait_and_retry`): it returned `True`, returned `False`, or
raised an exception (which `delete_file` catches and skips). -/
inductive DeleteMethodOutcome where
  | success
  | failed
  | raised
  deriving DecidableEq

/-- Embedding of `CodeGenerator.delete_file`. `targetExists` models
`(project_path / file_path).exists()`; `methods` lists the outcomes of the
five fallback deletion methods in order. -/
def cg_delete_file (targetExists : Bool) (methods : List DeleteMethodOutcome) : Bool :=
  if targetExists = false then true
  else methods.any (fun m => match m with | .success => true | _ => false)

/-- C10: `delete_file` returns `True` whenever the target path does not exist,
and it returns `False` only if every fallback deletion method fails. -/
theorem C10_delete_file_missing_ok_and_false_means_all_failed
    (methods : List DeleteMethodOutcome) (ex : Bool) :
    cg_delete_file false methods = true ∧
    (cg_delete_file ex methods = false →
      ex = true ∧ ∀ m ∈ methods, m ≠ DeleteMethodOutcome.success) := by
  refine ⟨rfl, fun h => ?_⟩
  cases ex with
  | false => exact absurd h (by simp [cg_delete_file])
  | true =>
    refine ⟨rfl, fun m hm he => ?_⟩
    rw [cg_delete_file] at h
    simp only [if_neg (by simp : ¬ (true = false))] at h
    rw [List.any_eq_false] at h
    have := h m hm
    subst he
    simp at this

/-- Witness for C10 at concrete inputs. -/
theorem C10_delete_file_witness :
    cg_delete_file false [DeleteMethodOutcome.failed] = true ∧
    (true = true ∧
      ∀ m ∈ [DeleteMethodOutcome.failed, DeleteMethodOutcome.raised],
        m ≠ DeleteMethodOutcome.success) :=
  ⟨(C10_delete_file_missing_ok_and_false_means_all_failed [DeleteMethodOutcome.failed] false).1,
   (C10_delete_file_missing_ok_and_false_means_all_failed
      [DeleteMethodOutcome.failed, DeleteMethodOutcome.raised] true).2 (by decide)⟩

/-! ## C4: JWT issuance and validation (src/routes/auth.py)

The PyJWT library is an external collaborator; it is modelled symbolically:
an encoded token is represented by its payload together with the key and
algorithm used to sign it, and `jwt.decode` succeeds exactly when the
verification key and accepted algorithms match the signing ones (soundness
of HMAC-SHA256 signatures).  Times are seconds (`datetime` values become
Nat timestamps). -/

/-- Payload of a JWT as built by `create_jwt_token`: `sub`, `exp`, `iat`. -/
structure JwtPayload where
  sub : Option String
  exp : Nat
  iat : Nat
  deriving DecidableEq

/-- Symbolic model of an encoded JWT: the payload plus the signing key and
algorithm (standing for the signature). -/
structure JwtToken where
  payload : JwtPayload
  key : String
  alg : String
  deriving DecidableEq

/-- Errors raised by `jwt.decode` that `verify_token` distinguishes. -/
inductive JwtError where
  | expiredSignature
  | invalidToken
  deriving DecidableEq

/-- Model of `jwt.encode(payload, key, algorithm=alg)`. -/
def jwtEncode (payload : JwtPayload) (key : String) (alg : String) : JwtToken :=
  ⟨payload, key, alg⟩

/-- Model of `jwt.decode(token, key, algorithms=algs)` evaluated at time
`now`: the signature check fails unless the key and algorithm match, and the
`exp` claim fails (PyJWT `ExpiredSignatureError`, zero leeway) when
`exp < now`. -/
def jwtDecode (t : JwtToken) (key : String) (algs : List String) (now : Nat) :
    Except JwtError JwtPayload :=
  if t.key = key ∧ t.alg ∈ algs then
    if t.payload.exp < now then .error .expiredSignature
    else .ok t.payload
  else .error .invalidToken

/-- Value of `JWT_EXPIRATION_MINUTES` in src/routes/auth.py (24 hours). -/
def JWT_EXPIRATION_MINUTES : Nat := 1440

/-- Embedding of `create_jwt_token` (src/routes/auth.py lines 60-66); the
module-level `JWT_SECRET` is passed explicitly, `now` is the current UTC
time in seconds. -/
def create_jwt_token (secret : String) (now : Nat) (userId : String) : JwtToken :=
  jwtEncode ⟨some userId, now + JWT_EXPIRATION_MINUTES * 60, now⟩ secret "HS256"

/-- A raised FastAPI `HTTPException`. -/
structure HTTPExc where
  statusCode : Nat
  detail : String
  deriving DecidableEq

/-- Embedding of `verify_token` (src/routes/auth.py lines 75-104).  `token`
models the OAuth2-scheme token and `headerToken` the one extracted from the
Authorization header; `final_token = token or header_token`. -/
def verify_token (secret : String) (now : Nat)
    (token headerToken : Option JwtToken) : Except HTTPExc String :=
  let finalToken := match token with
    | some t => some t
    | none => headerToken
  match finalToken with
  | none => .error ⟨401, "未提供认证令牌"⟩
  | some t =>
    match jwtDecode t secret ["HS256"] now with
    | .error .expiredSignature => .error ⟨401, "认证令牌已过期"⟩
    | .error .invalidToken => .error ⟨401, "无效的认证令牌"⟩
    | .ok payload =>
      match payload.sub with
      | none => .error ⟨401, "无效的认证令牌"⟩
      | some uid => .ok uid

/-- Unfolding equation for `verify_token` on a present token. -/
theorem verify_token_some_eq (secret : String) (now : Nat) (t : JwtToken)
    (ht : Option JwtToken) :
    verify_token secret now (some t) ht =
      match jwtDecode t secret ["HS256"] now with
      | .error .expiredSignature => .error ⟨401, "认证令牌已过期"⟩
      | .error .invalidToken => .error ⟨401, "无效的认证令牌"⟩
      | .ok payload =>
        match payload.sub with
        | none => .error ⟨401, "无效的认证令牌"⟩
        | some uid => .ok uid := rfl

/-- C4: verifying a token produced by `create_jwt_token(user_id)` with the
same secret before its 24-hour expiry returns exactly `user_id`; and
`verify_token` raises a 401 `HTTPException` whenever no token is supplied,
the signature check fails, the `sub` claim is missing, or the token has
expired. -/
theorem C4_jwt_roundtrip_and_401s
    (secret : String) (issued verifyTime now : Nat) (uid : String)
    (t : JwtToken) (ht : Option JwtToken) :
    (verifyTime < issued + JWT_EXPIRATION_MINUTES * 60 →
      verify_token secret verifyTime (some (create_jwt_token secret issued uid)) ht =
        .ok uid) ∧
    (verify_token secret now none none = .error ⟨401, "未提供认证令牌"⟩) ∧
    (t.key ≠ secret →
      verify_token secret now (some t) ht = .error ⟨401, "无效的认证令牌"⟩) ∧
    (t.payload.sub = none →
      ∃ d, verify_token secret now (some t) ht = .error ⟨401, d⟩) ∧
    (t.key = secret → t.alg = "HS256" → t.payload.exp < now →
      verify_token secret now (some t) ht = .error ⟨401, "认证令牌已过期"⟩) := by
  refine ⟨fun hlt => ?_, rfl, fun hk => ?_, fun hsub => ?_, fun hk ha hexp => ?_⟩
  · have hd : jwtDecode (create_jwt_token secret issued uid) secret ["HS256"] verifyTime
        = .ok ⟨some uid, issued + JWT_EXPIRATION_MINUTES * 60, issued⟩ := by
      unfold create_jwt_token jwtEncode jwtDecode
      rw [if_pos ⟨rfl, by simp⟩, if_neg (Nat.not_lt.mpr (Nat.le_of_lt hlt))]
    rw [verify_token_some_eq, hd]
  · have hd : jwtDecode t secret ["HS256"] now = .error .invalidToken := by
      unfold jwtDecode
      rw [if_neg (fun hc => hk hc.1)]
    rw [verify_token_some_eq, hd]
  · rw [verify_token_some_eq]
    rcases hde : jwtDecode t secret ["HS256"] now with e | payload
    · cases e
      · exact ⟨_, rfl⟩
      · exact ⟨_, rfl⟩
    · have hpay : payload = t.payload := by
        unfold jwtDecode at hde
        by_cases hc : t.key = secret ∧ t.alg ∈ ["HS256"]
        · rw [if_pos hc] at hde
          by_cases he : t.payload.exp < now
          · rw [if_pos he] at hde; cases hde
          · rw [if_neg he] at hde; cases hde; rfl
        · rw [if_neg hc] at hde; cases hde
      rw [hpay]
      simp only [hsub]
      exact ⟨_, rfl⟩
  · have hd : jwtDecode t secret ["HS256"] now = .error .expiredSignature := by
      unfold jwtDecode
      rw [if_pos ⟨hk, by simp [ha]⟩, if_pos hexp]
    rw [verify_token_some_eq, hd]

/-- Witness for C4 at concrete inputs: secret `"s"`, user `"u"`, a token
issued at time 0 and verified at time 1, plus the 401 cases. -/
theorem C4_jwt_witness :
    (1 < 0 + JWT_EXPIRATION_MINUTES * 60 ∧
      verify_token "s" 1 (some (create_jwt_token "s" 0 "u")) none =
        .ok "u") ∧
    (verify_token "s" 1 none none = .error ⟨401, "未提供认证令牌"⟩) ∧
    ((⟨⟨some "u", 999, 0⟩, "other", "HS256"⟩ : JwtToken).key ≠ "s" ∧
      verify_token "s" 1 (some ⟨⟨some "u", 999, 0⟩, "other", "HS256"⟩) none =
        .error ⟨401, "无效的认证令牌"⟩) ∧
    (∃ d, verify_token "s" 1 (some ⟨⟨none, 999, 0⟩, "s", "HS256"⟩) none =
        .error ⟨401, d⟩) ∧
    (verify_token "s" 50 (some ⟨⟨some "u", 3, 0⟩, "s", "HS256"⟩) none =
        .error ⟨401, "认证令牌已过期"⟩) := by
  have h1 := C4_jwt_roundtrip_and_401s "s" 0 1 1 "u"
    ⟨⟨some "u", 999, 0⟩, "other", "HS256"⟩ none
  have h2 := C4_jwt_roundtrip_and_401s "s" 0 1 1 "u"
    ⟨⟨none, 999, 0⟩, "s", "HS256"⟩ none
  have h3 := C4_jwt_roundtrip_and_401s "s" 0 1 50 "u"
    ⟨⟨some "u", 3, 0⟩, "s", "HS256"⟩ none
  exact ⟨⟨by decide, h1.1 (by decide)⟩, h1.2.1,
    ⟨by decide, h1.2.2.1 (by decide)⟩,
    h2.2.2.2.1 rfl,
    h3.2.2.2.2 rfl rfl (by decide)⟩

/-! ## C5 and C6: ConnectionManager (src/routes/websocket_api.py 47-101)

`active_connections` is a Python dict from project id to a list of
websockets.  The dict is embedded as an association list with insertion
order (new keys are appended at the end, matching dict insertion order);
websockets are identified by naturals. -/

/-- The `active_connections` registry. -/
abbrev WsManager := List (String × List Nat)

/-- Dict read: value of key `pid`, `none` when absent. -/
def lookupWs (pid : String) : WsManager → Option (List Nat)
  | [] => none
  | e :: t => if e.1 = pid then some e.2 else lookupWs pid t

/-- Dict write for an existing key: replace the value at `pid`. -/
def updateWs (pid : String) (l : List Nat) : WsManager → WsManager
  | [] => []
  | e :: t => (if e.1 = pid then (pid, l) else e) :: updateWs pid l t

/-- Python `del d[pid]`. -/
def eraseWsKey (pid : String) : WsManager → WsManager
  | [] => []
  | e :: t => if e.1 = pid then eraseWsKey pid t else e :: eraseWsKey pid t

/-- Embedding of `ConnectionManager.connect` (lines 53-59): create the entry
if absent, then append the websocket to the project's list. -/
def wsConnect (pid : String) (ws : Nat) (m : WsManager) : WsManager :=
  match lookupWs pid m with
  | none => m ++ [(pid, [ws])]
  | some l => updateWs pid (l ++ [ws]) m

/-- Embedding of `ConnectionManager.disconnect` (lines 61-69): if the project
is registered, remove the first occurrence of the websocket (when present),
then delete the project's entry if its list is now empty. -/
def wsDisconnect (pid : String) (ws : Nat) (m : WsManager) : WsManager :=
  match lookupWs pid m with
  | none => m
  | some l =>
    let l2 := if ws ∈ l then l.erase ws else l
    if l2 = [] then eraseWsKey pid m else updateWs pid l2 m

/-- Lookup after updating the same key: the new value when the key was
present, still absent otherwise. -/
theorem lookupWs_updateWs_self (pid : String) (l : List Nat) (m : WsManager) :
    lookupWs pid (updateWs pid l m) =
      match lookupWs pid m with
      | none => none
      | some _ => some l := by
  induction m with
  | nil => rfl
  | cons e t ih =>
    by_cases h : e.1 = pid
    · simp [updateWs, lookupWs, h]
    · simp [updateWs, lookupWs, h, ih]

/-- Lookup of a different key after an update. -/
theorem lookupWs_updateWs_ne (pid q : String) (l : List Nat) (m : WsManager)
    (h : q ≠ pid) : lookupWs q (updateWs pid l m) = lookupWs q m := by
  induction m with
  | nil => rfl
  | cons e t ih =>
    by_cases he : e.1 = pid
    · rw [updateWs, if_pos he, lookupWs, lookupWs,
        if_neg (show ¬ pid = q from fun hc => h hc.symm),
        if_neg (show ¬ e.1 = q from he ▸ fun hc => h hc.symm)]
      exact ih
    · rw [updateWs, if_neg he, lookupWs, lookupWs]
      by_cases hq : e.1 = q
      · rw [if_pos hq, if_pos hq]
      · rw [if_neg hq, if_neg hq]; exact ih

/-- Lookup of the deleted key. -/
theorem lookupWs_eraseWsKey_self (pid : String) (m : WsManager) :
    lookupWs pid (eraseWsKey pid m) = none := by
  induction m with
  | nil => rfl
  | cons e t ih =>
    by_cases h : e.1 = pid
    · simp [eraseWsKey, h, ih]
    · simp [eraseWsKey, lookupWs, h, ih]

/-- Lookup of a different key after a deletion. -/
theorem lookupWs_eraseWsKey_ne (pid q : String) (m : WsManager) (h : q ≠ pid) :
    lookupWs q (eraseWsKey pid m) = lookupWs q m := by
  induction m with
  | nil => rfl
  | cons e t ih =>
    by_cases he : e.1 = pid
    · rw [eraseWsKey, if_pos he, ih, lookupWs,
        if_neg (by rw [he]; exact fun hc => h hc.symm)]
    · rw [eraseWsKey, if_neg he, lookupWs, lookupWs]
      by_cases hq : e.1 = q
      · rw [if_pos hq, if_pos hq]
      · rw [if_neg hq, if_neg hq, ih]

/-- Lookup of a key appended at the end of the registry. -/
theorem lookupWs_append_self (pid : String) (v : List Nat) (m : WsManager)
    (h : lookupWs pid m = none) : lookupWs pid (m ++ [(pid, v)]) = some v := by
  induction m with
  | nil => simp [lookupWs]
  | cons e t ih =>
    rw [lookupWs] at h
    by_cases he : e.1 = pid
    · rw [if_pos he] at h; cases h
    · rw [if_neg he] at h
      rw [List.cons_append, lookupWs, if_neg he]
      exact ih h

/-- Lookup of a different key after appending an entry at the end. -/
theorem lookupWs_append_ne (pid q : String) (v : List Nat) (m : WsManager)
    (h : q ≠ pid) : lookupWs q (m ++ [(pid, v)]) = lookupWs q m := by
  induction m with
  | nil =>
    have hne : ¬ pid = q := fun hc => h hc.symm
    show (if pid = q then some v else lookupWs q []) = lookupWs q []
    rw [if_neg hne]
  | cons e t ih =>
    rw [List.cons_append, lookupWs, lookupWs]
    by_cases hq : e.1 = q
    · rw [if_pos hq, if_pos hq]
    · rw [if_neg hq, if_neg hq, ih]

/-- Unfolding of `wsConnect` when the project is absent. -/
theorem wsConnect_none_eq (pid : String) (ws : Nat) (m : WsManager)
    (h : lookupWs pid m = none) : wsConnect pid ws m = m ++ [(pid, [ws])] := by
  unfold wsConnect
  rw [h]

/-- Unfolding of `wsConnect` when the project is present. -/
theorem wsConnect_some_eq (pid : String) (ws : Nat) (m : WsManager) (l : List Nat)
    (h : lookupWs pid m = some l) : wsConnect pid ws m = updateWs pid (l ++ [ws]) m := by
  unfold wsConnect
  rw [h]

/-- Unfolding of `wsDisconnect` when the project is absent. -/
theorem wsDisconnect_none_eq (pid : String) (ws : Nat) (m : WsManager)
    (h : lookupWs pid m = none) : wsDisconnect pid ws m = m := by
  unfold wsDisconnect
  rw [h]

/-- Unfolding of `wsDisconnect` when the project is present: the guarded
`remove` is `List.erase`. -/
theorem wsDisconnect_some_eq (pid : String) (ws : Nat) (m : WsManager) (l : List Nat)
    (h : lookupWs pid m = some l) :
    wsDisconnect pid ws m =
      (if l.erase ws = [] then eraseWsKey pid m else updateWs pid (l.erase ws) m) := by
  have hl2 : (if ws ∈ l then l.erase ws else l) = l.erase ws := by
    by_cases hm : ws ∈ l
    · rw [if_pos hm]
    · rw [if_neg hm, List.erase_of_not_mem hm]
  unfold wsDisconnect
  rw [h]
  show (if (if ws ∈ l then l.erase ws else l) = []
      then eraseWsKey pid m
      else updateWs pid (if ws ∈ l then l.erase ws else l) m) = _
  rw [hl2]

/-- Effect of `connect` on the project's own entry: the websocket is appended
(to a fresh empty list when the project was absent). -/
theorem lookupWs_wsConnect_self (pid : String) (ws : Nat) (m : WsManager) :
    lookupWs pid (wsConnect pid ws m) = some ((lookupWs pid m).getD [] ++ [ws]) := by
  rcases h : lookupWs pid m with _ | l
  · rw [wsConnect_none_eq pid ws m h, lookupWs_append_self pid [ws] m h,
      Option.getD_none, List.nil_append]
  · rw [wsConnect_some_eq pid ws m l h, lookupWs_updateWs_self, h, Option.getD_some]

/-- `connect` leaves the entries of other projects unchanged. -/
theorem lookupWs_wsConnect_ne (pid q : String) (ws : Nat) (m : WsManager)
    (h : q ≠ pid) : lookupWs q (wsConnect pid ws m) = lookupWs q m := by
  rcases hl : lookupWs pid m with _ | l
  · rw [wsConnect_none_eq pid ws m hl, lookupWs_append_ne pid q [ws] m h]
  · rw [wsConnect_some_eq pid ws m l hl, lookupWs_updateWs_ne pid q _ m h]

/-- Effect of `disconnect` on the project's own entry: one occurrence of the
websocket is removed, and the entry disappears exactly when the remaining
list is empty. -/
theorem lookupWs_wsDisconnect_self (pid : String) (ws : Nat) (m : WsManager) :
    lookupWs pid (wsDisconnect pid ws m) =
      (if ((lookupWs pid m).getD []).erase ws = [] then none
       else some (((lookupWs pid m).getD []).erase ws)) := by
  rcases h : lookupWs pid m with _ | l
  · rw [wsDisconnect_none_eq pid ws m h, h, Option.getD_none, List.erase_nil,
      if_pos rfl]
  · rw [wsDisconnect_some_eq pid ws m l h, Option.getD_some]
    by_cases he : l.erase ws = []
    · rw [if_pos he, if_pos he, lookupWs_eraseWsKey_self]
    · rw [if_neg he, if_neg he, lookupWs_updateWs_self, h]

/-- `disconnect` leaves the entries of other projects unchanged. -/
theorem lookupWs_wsDisconnect_ne (pid q : String) (ws : Nat) (m : WsManager)
    (h : q ≠ pid) : lookupWs q (wsDisconnect pid ws m) = lookupWs q m := by
  rcases hl : lookupWs pid m with _ | l
  · rw [wsDisconnect_none_eq pid ws m hl]
  · rw [wsDisconnect_some_eq pid ws m l hl]
    by_cases he : l.erase ws = []
    · rw [if_pos he]; exact lookupWs_eraseWsKey_ne pid q m h
    · rw [if_neg he]; exact lookupWs_updateWs_ne pid q _ m h

/-- One step of the registry history: a `connect` or a `disconnect`. -/
inductive WsOp where
  | connect (pid : String) (ws : Nat)
  | disconnect (pid : String) (ws : Nat)

/-- Apply one operation to the registry. -/
def applyWsOp (m : WsManager) (op : WsOp) : WsManager :=
  match op with
  | .connect pid ws => wsConnect pid ws m
  | .disconnect pid ws => wsDisconnect pid ws m

/-- Registry reached from the empty manager by a sequence of operations. -/
def applyWsOps (ops : List WsOp) : WsManager :=
  ops.foldl applyWsOp []

/-- Every project present in the registry maps to a non-empty list. -/
def wsInvariant (m : WsManager) : Prop :=
  ∀ pid l, lookupWs pid m = some l → l ≠ []

theorem wsInvariant_connect (pid : String) (ws : Nat) (m : WsManager)
    (h : wsInvariant m) : wsInvariant (wsConnect pid ws m) := by
  intro q l hq
  by_cases hqp : q = pid
  · subst hqp
    rw [lookupWs_wsConnect_self] at hq
    cases hq
    simp
  · rw [lookupWs_wsConnect_ne pid q ws m hqp] at hq
    exact h q l hq

theorem wsInvariant_disconnect (pid : String) (ws : Nat) (m : WsManager)
    (h : wsInvariant m) : wsInvariant (wsDisconnect pid ws m) := by
  intro q l hq
  by_cases hqp : q = pid
  · subst hqp
    rw [lookupWs_wsDisconnect_self] at hq
    split at hq
    · cases hq
    · cases hq; assumption
  · rw [lookupWs_wsDisconnect_ne pid q ws m hqp] at hq
    exact h q l hq

theorem wsInvariant_foldl (ops : List WsOp) (m : WsManager)
    (h : wsInvariant m) : wsInvariant (ops.foldl applyWsOp m) := by
  induction ops generalizing m with
  | nil => exact h
  | cons op t ih =>
    rw [List.foldl_cons]
    apply ih
    cases op with
    | connect pid ws => exact wsInvariant_connect pid ws m h
    | disconnect pid ws => exact wsInvariant_disconnect pid ws m h

/-- C5: `connect` appends the websocket to the project's list (creating the
entry when absent), `disconnect` removes one occurrence and deletes the
entry when the list becomes empty, and after every sequence of operations
starting from the empty manager, every project id present in
`active_connections` maps to a non-empty list. -/
theorem C5_registry_lists_nonEmpty (pid : String) (ws : Nat) (m : WsManager)
    (ops : List WsOp) :
    lookupWs pid (wsConnect pid ws m) = some ((lookupWs pid m).getD [] ++ [ws]) ∧
    lookupWs pid (wsDisconnect pid ws m) =
      (if ((lookupWs pid m).getD []).erase ws = [] then none
       else some (((lookupWs pid m).getD []).erase ws)) ∧
    (∀ l, lookupWs pid (applyWsOps ops) = some l → l ≠ []) := by
  refine ⟨lookupWs_wsConnect_self pid ws m, lookupWs_wsDisconnect_self pid ws m,
    fun l hl => ?_⟩
  exact wsInvariant_foldl ops [] (fun _ _ h => by cases h) pid l hl

/-- Witness for C5 at a concrete operation sequence. -/
theorem C5_registry_witness :
    lookupWs "p" (wsConnect "p" 1 []) = some [1] ∧
    (([2] : List Nat) ≠ []) :=
  ⟨(C5_registry_lists_nonEmpty "p" 1 [] []).1,
   (C5_registry_lists_nonEmpty "p" 1 []
      [.connect "p" 1, .connect "p" 2, .disconnect "p" 1]).2.2 [2] (by decide)⟩

/-! ## C6: ConnectionManager.send_personal_message / send_message
(src/routes/websocket_api.py 71-101)

Both methods iterate over the project's websocket list, attempt
`websocket.send_json(message)` on each one, catch any exception (appending
the failing websocket to `disconnected_websockets`), and after the loop call
`disconnect` on each collected websocket.  Whether a given send raises is
environmental; it is modelled by a predicate `fails` on websockets.  The
embedding returns the new registry together with the list of websockets a
send was attempted on. -/

/-- Embedding of `ConnectionManager.send_personal_message` (lines 87-101).
`msg` is the JSON message (it does not influence the registry). -/
def wsSendPersonal (fails : Nat → Bool) (msg : String) (pid : String)
    (m : WsManager) : WsManager × List Nat :=
  match lookupWs pid m with
  | none => (m, [])
  | some conns =>
    let disconnected := conns.filter fails
    (disconnected.foldl (fun acc ws => wsDisconnect pid ws acc) m, conns)

/-- Embedding of the deprecated `ConnectionManager.send_message`
(lines 71-85); its body is identical to `send_personal_message` up to the
argument order and log text. -/
def wsSendMessage (fails : Nat → Bool) (pid : String) (msg : String)
    (m : WsManager) : WsManager × List Nat :=
  match lookupWs pid m with
  | none => (m, [])
  | some conns =>
    let disconnected := conns.filter fails
    (disconnected.foldl (fun acc ws => wsDisconnect pid ws acc) m, conns)

/-- Erasing an element different from the head passes over the head. -/
theorem erase_cons_of_ne_head {x y : Nat} (l : List Nat) (h : y ≠ x) :
    (x :: l).erase y = x :: l.erase y := by
  have hx : x ≠ y := fun hc => h hc.symm
  simp [List.erase_cons, hx]

/-- Folding erasures of elements all different from `x` over `x :: l`
keeps the head. -/
theorem foldl_erase_cons (toRem : List Nat) (x : Nat) (l : List Nat)
    (h : ∀ y ∈ toRem, y ≠ x) :
    toRem.foldl (fun acc y => acc.erase y) (x :: l) =
      x :: toRem.foldl (fun acc y => acc.erase y) l := by
  induction toRem generalizing l with
  | nil => rfl
  | cons r t ih =>
    rw [List.foldl_cons, List.foldl_cons,
      erase_cons_of_ne_head l (h r (List.mem_cons_self r t))]
    exact ih (l.erase r) (fun y hy => h y (List.mem_cons_of_mem r hy))

/-- Erasing, one at a time, exactly the elements satisfying `p` from a list
leaves the elements not satisfying `p`. -/
theorem foldl_erase_filter (p : Nat → Bool) (l : List Nat) :
    (l.filter p).foldl (fun acc y => acc.erase y) l =
      l.filter (fun x => !p x) := by
  induction l with
  | nil => rfl
  | cons x t ih =>
    by_cases hp : p x = true
    · rw [List.filter_cons_of_pos hp, List.foldl_cons, List.erase_cons_head]
      rw [List.filter_cons_of_neg (by simp [hp])]
      exact ih
    · have hp' : p x = false := by
        cases hpx : p x
        · rfl
        · exact absurd hpx hp
      rw [List.filter_cons_of_neg (by simp [hp']),
        List.filter_cons_of_pos (by simp [hp']),
        foldl_erase_cons (t.filter p) x t
          (fun y hy hyx => by
            have := List.of_mem_filter hy
            rw [hyx, hp'] at this
            cases this)]
      rw [ih]

/-- Folding erasures starting from the empty list stays empty. -/
theorem foldl_erase_nil (toRem : List Nat) :
    toRem.foldl (fun acc y => acc.erase y) [] = [] := by
  induction toRem with
  | nil => rfl
  | cons r t ih =>
    rw [List.foldl_cons, List.erase_nil]
    exact ih

/-- A fold of `disconnect` calls over a project that is absent is a no-op. -/
theorem foldl_wsDisconnect_none (pid : String) (toRem : List Nat) (m : WsManager)
    (h : lookupWs pid m = none) :
    toRem.foldl (fun acc ws => wsDisconnect pid ws acc) m = m := by
  induction toRem with
  | nil => rfl
  | cons r t ih =>
    rw [List.foldl_cons, wsDisconnect_none_eq pid r m h]
    exact ih

/-- Effect on the project's own entry of disconnecting each websocket of
`toRem` in order, starting from a registry where the project maps to a
non-empty `conns`. -/
theorem lookupWs_foldl_wsDisconnect (pid : String) (toRem : List Nat) :
    ∀ (m : WsManager) (conns : List Nat), lookupWs pid m = some conns →
      conns ≠ [] →
      lookupWs pid (toRem.foldl (fun acc ws => wsDisconnect pid ws acc) m) =
        (if toRem.foldl (fun acc y => acc.erase y) conns = [] then none
         else some (toRem.foldl (fun acc y => acc.erase y) conns)) := by
  induction toRem with
  | nil =>
    intro m conns h hne
    rw [List.foldl_nil, List.foldl_nil, if_neg hne, h]
  | cons r t ih =>
    intro m conns h hne
    rw [List.foldl_cons, List.foldl_cons]
    by_cases he : conns.erase r = []
    · have h1 : lookupWs pid (wsDisconnect pid r m) = none := by
        rw [wsDisconnect_some_eq pid r m conns h, if_pos he,
          lookupWs_eraseWsKey_self]
      rw [foldl_wsDisconnect_none pid t _ h1, h1, he, foldl_erase_nil,
        if_pos rfl]
    · have h1 : lookupWs pid (wsDisconnect pid r m) = some (conns.erase r) := by
        rw [wsDisconnect_some_eq pid r m conns h, if_neg he,
          lookupWs_updateWs_self, h]
      exact ih _ _ h1 he

/-- Other projects' entries are untouched by a fold of `disconnect` calls. -/
theorem lookupWs_foldl_wsDisconnect_ne (pid q : String) (toRem : List Nat)
    (h : q ≠ pid) :
    ∀ m : WsManager,
      lookupWs q (toRem.foldl (fun acc ws => wsDisconnect pid ws acc) m) =
        lookupWs q m := by
  induction toRem with
  | nil => intro m; rfl
  | cons r t ih =>
    intro m
    rw [List.foldl_cons, ih, lookupWs_wsDisconnect_ne pid q r m h]

/-- C6: `send_personal_message` (and the identical, deprecated
`send_message`) attempts a send to every websocket registered under the
project id; a failing send does not propagate and does not stop the
broadcast (the embedding is a total function attempting all of `conns`);
each websocket whose send failed is removed from the registry after the
broadcast; and for a project id with no registered connections the call does
nothing.  Other projects' entries are never touched. -/
theorem C6_broadcast_failures_removed (fails : Nat → Bool) (msg : String)
    (pid q : String) (m : WsManager) (conns : List Nat) :
    (wsSendMessage fails pid msg m = wsSendPersonal fails msg pid m) ∧
    (lookupWs pid m = none → wsSendPersonal fails msg pid m = (m, [])) ∧
    (q ≠ pid →
      lookupWs q (wsSendPersonal fails msg pid m).1 = lookupWs q m) ∧
    (lookupWs pid m = some conns → conns ≠ [] →
      (wsSendPersonal fails msg pid m).2 = conns ∧
      lookupWs pid (wsSendPersonal fails msg pid m).1 =
        (if conns.filter (fun w => !fails w) = [] then none
         else some (conns.filter (fun w => !fails w)))) := by
  refine ⟨rfl, fun h => ?_, fun hq => ?_, fun h hne => ?_⟩
  · unfold wsSendPersonal
    rw [h]
  · unfold wsSendPersonal
    rcases hl : lookupWs pid m with _ | conns'
    · rfl
    · exact lookupWs_foldl_wsDisconnect_ne pid q (conns'.filter fails) hq m
  · have h2 : wsSendPersonal fails msg pid m =
        ((conns.filter fails).foldl (fun acc ws => wsDisconnect pid ws acc) m,
          conns) := by
      unfold wsSendPersonal
      rw [h]
    rw [h2]
    refine ⟨rfl, ?_⟩
    rw [lookupWs_foldl_wsDisconnect pid (conns.filter fails) m conns h hne,
      foldl_erase_filter]

/-- Witness for C6 at a concrete registry: project `"p"` holds websockets
`[1, 2]`, the send to `1` fails, the send to `2` succeeds. -/
theorem C6_broadcast_witness :
    (wsSendMessage (fun w => w == 1) "p" "hi" [("p", [1, 2])] =
      wsSendPersonal (fun w => w == 1) "hi" "p" [("p", [1, 2])]) ∧
    (lookupWs "q" (wsSendPersonal (fun w => w == 1) "hi" "p"
        [("p", [1, 2])]).1 = lookupWs "q" [("p", [1, 2])]) ∧
    ((wsSendPersonal (fun w => w == 1) "hi" "p" [("p", [1, 2])]).2 = [1, 2] ∧
      lookupWs "p" (wsSendPersonal (fun w => w == 1) "hi" "p"
        [("p", [1, 2])]).1 = some [2]) ∧
    (wsSendPersonal (fun w => w == 1) "hi" "none" [("p", [1, 2])] =
      ([("p", [1, 2])], [])) := by
  have h := C6_broadcast_failures_removed (fun w => w == 1) "hi" "p" "q"
    [("p", [1, 2])] [1, 2]
  have h2 := C6_broadcast_failures_removed (fun w => w == 1) "hi" "none" "q"
    [("p", [1, 2])] [1, 2]
  refine ⟨h.1, h.2.2.1 (by decide), ?_, h2.2.1 (by decide)⟩
  have h3 := h.2.2.2 (by decide) (by decide)
  exact ⟨h3.1, by rw [h3.2]; decide⟩

/-! ## C7: CodeGenerator._process_file_changes
(src/routes/websocket_api.py 757-846)

`files_dict_before` and the generated `files_dict` are dicts from relative
path to content, embedded as association lists in iteration order.  The
embedding records the reported added/modified/deleted lists and the
filesystem actions: the delete loop's removals (assuming `os.remove`
succeeds) and the save loop's writes. -/

/-- Generic association-list read (Python dict lookup). -/
def lookupA {α : Type} (k : String) : List (String × α) → Option α
  | [] => none
  | p :: t => if p.1 = k then some p.2 else lookupA k t

/-- Test from lines 766: the path contains `/dev/null` or `\dev\null`. -/
def isDevNullPath (p : String) : Bool :=
  strContainsSub p "/dev/null" || strContainsSub p "\\dev\\null"

/-- Outputs of `_process_file_changes`: the three reported lists, the writes
performed by the save loop, and the paths removed from disk by the delete
loop. -/
structure ProcessChangesResult where
  added : List String
  modified : List String
  deleted : List String
  written : List FsWrite
  removedFromDisk : List String
  deriving DecidableEq

/-- Embedding of `_process_file_changes`.  The first loop (lines 764-791)
classifies non-`/dev/null` paths as added or modified; the second loop
(lines 794-823) removes from disk each pre-existing path absent from the new
dict (when it exists on disk; removal is assumed to succeed); the third loop
(lines 826-844) writes every path of the new dict — with no `/dev/null`
skip — to `project_path / file_path`. -/
def processFileChanges (pid : String) (before after : List (String × String))
    (existsOnDisk : String → Bool) : ProcessChangesResult :=
  let projPath := "projects/" ++ pid
  let added := (after.filter (fun pc =>
      !isDevNullPath pc.1 && (lookupA pc.1 before).isNone)).map Prod.fst
  let modified := (after.filter (fun pc =>
      !isDevNullPath pc.1 &&
        (match lookupA pc.1 before with
         | some c0 => c0 != pc.2
         | none => false))).map Prod.fst
  let deleted := (before.filter (fun pc =>
      (lookupA pc.1 after).isNone &&
        existsOnDisk (pathJoin projPath pc.1))).map Prod.fst
  let written := after.map (fun pc => FsWrite.mk (pathJoin projPath pc.1) pc.2)
  ⟨added, modified, deleted, written, deleted⟩

/-- C7: the claim states that a path containing `/dev/null` is skipped
entirely: not reported as added or modified and never written to disk under
the project directory.  The first half is true, but the save loop iterates
over the whole `files_dict` without the `/dev/null` skip, so the content of
such a path is written to `projects/{project_id}/...` anyway.  This theorem
evaluates the embedding at `files_dict = {"a/dev/null": "x"}` over an empty
`files_dict_before`. -/
theorem C7_devnull_still_written_eval :
    (processFileChanges "p" [] [("a/dev/null", "x")] (fun _ => false)).added = [] ∧
    (processFileChanges "p" [] [("a/dev/null", "x")] (fun _ => false)).modified = [] ∧
    (processFileChanges "p" [] [("a/dev/null", "x")] (fun _ => false)).written =
      [⟨"projects/p/a/dev/null", "x"⟩] ∧
    insideProjectDir "p" "projects/p/a/dev/null" = true := by
  refine ⟨?_, ?_, ?_, ?_⟩ <;> decide

/-! ## C2: RequestLoggingMiddleware body capture and replay
(src/middleware/logging_middleware.py 96-144 and 157-218)

Request side: when the method is POST/PUT/PATCH and request-body logging is
enabled, the middleware reads the full body and replaces `request._receive` with
a function replaying exactly those bytes, so the downstream handler sees the
client's bytes either way.  Response side: when the response is captured
(content type present and containing "json" or "text/", no content
encoding), the middleware builds a new `StreamingResponse` from
`logging_iterator()` (which yields the original chunks unchanged while
collecting them), the original status code, and `dict(response.headers)`.
`dict` over starlette `Headers` collapses a repeated header name to its
first value (`Headers.__getitem__` returns the first match), which is where
the original claim fails. -/

/-- Lowercasing as used on header values (`.lower()`); ASCII suffices for
the header tokens compared against. -/
def lowerS (s : String) : String :=
  String.mk (s.data.map Char.toLower)

/-- A response as seen by the middleware after `call_next`: status code, raw
headers (lowercase names, in order, possibly repeated), and the body
iterator's chunks (bytes). -/
structure MwResponse where
  statusCode : Nat
  headers : List (String × String)
  chunks : List (List Nat)
  deriving DecidableEq

/-- starlette `Headers.get(k, "")`: value of the first header named `k`. -/
def headerGet (k : String) (hs : List (String × String)) : String :=
  (lookupA k hs).getD ""

/-- Python `dict(response.headers)`: distinct names in first-occurrence
order, each mapped to its first value. -/
def dedupKeysKeepFirst (hs : List (String × String)) : List (String × String) :=
  hs.foldl (fun acc p => if (lookupA p.1 acc).isSome then acc else acc ++ [p]) []

/-- Condition of lines 158-164: response-body logging enabled, content type
non-empty and containing "json" or "text/", and no content encoding. -/
def shouldCaptureResponseBody (logResponseBody : Bool) (r : MwResponse) : Bool :=
  let ct := lowerS (headerGet "content-type" r.headers)
  let ce := lowerS (headerGet "content-encoding" r.headers)
  logResponseBody && !(ct == "") &&
    (strContainsSub ct "json" || strContainsSub ct "text/") && (ce == "")

/-- Response delivered to the client by `dispatch` (lines 157-218): the
rebuilt `StreamingResponse` when the body is captured, the handler's
response unchanged otherwise. -/
def middlewareResponse (logResponseBody : Bool) (r : MwResponse) : MwResponse :=
  if shouldCaptureResponseBody logResponseBody r then
    ⟨r.statusCode, dedupKeysKeepFirst r.headers, r.chunks⟩
  else r

/-- Lines 99-103: the request body is read (captured) when the method is
POST, PUT or PATCH and request-body logging is enabled. -/
def captureRequestBody (logRequestBody : Bool) (method : String)
    (clientBody : List Nat) : Option (List Nat) :=
  if logRequestBody && (method == "POST" || method == "PUT" || method == "PATCH")
  then some clientBody else none

/-- Body seen by the downstream handler (lines 137-144): the replayed
captured bytes when the body was read, the untouched client stream
otherwise. -/
def downstreamRequestBody (logRequestBody : Bool) (method : String)
    (clientBody : List Nat) : List Nat :=
  match captureRequestBody logRequestBody method clientBody with
  | some b => b
  | none => clientBody

/-- Characterisation of an absent key in an association list. -/
theorem lookupA_eq_none {α : Type} (k : String) (l : List (String × α)) :
    lookupA k l = none ↔ ∀ p ∈ l, p.1 ≠ k := by
  induction l with
  | nil => simp [lookupA]
  | cons p t ih =>
    rw [lookupA]
    by_cases hp : p.1 = k
    · simp [hp]
    · simp [hp, ih]

/-- Folding the keep-first insertion over pairs whose keys avoid the
accumulator and are mutually distinct appends them unchanged. -/
theorem foldl_keepFirst_append (hs : List (String × String)) :
    ∀ acc : List (String × String),
      (∀ p ∈ hs, lookupA p.1 acc = none) → (hs.map Prod.fst).Nodup →
      hs.foldl (fun acc p =>
          if (lookupA p.1 acc).isSome then acc else acc ++ [p]) acc =
        acc ++ hs := by
  induction hs with
  | nil => intro acc _ _; rw [List.foldl_nil, List.append_nil]
  | cons p t ih =>
    intro acc hdisj hnodup
    rw [List.foldl_cons, if_neg (by
      rw [hdisj p (List.mem_cons_self p t)]
      simp)]
    rw [List.map_cons, List.nodup_cons] at hnodup
    rw [ih (acc ++ [p]) ?_ hnodup.2]
    · rw [List.append_assoc, List.singleton_append]
    · intro q hq
      rw [lookupA_eq_none]
      intro e he
      rcases List.mem_append.mp he with h1 | h1
      · have := (lookupA_eq_none q.1 acc).mp (hdisj q (List.mem_cons_of_mem p hq))
        exact this e h1
      · rcases List.mem_singleton.mp h1 with rfl
        intro hc
        exact hnodup.1 (hc ▸ List.mem_map_of_mem Prod.fst hq)

/-- With no repeated header name, `dict(response.headers)` is the identity. -/
theorem dedupKeysKeepFirst_of_nodup (hs : List (String × String))
    (h : (hs.map Prod.fst).Nodup) : dedupKeysKeepFirst hs = hs := by
  unfold dedupKeysKeepFirst
  rw [foldl_keepFirst_append hs [] (fun p _ => rfl) h, List.nil_append]

/-- C2 as amended: the downstream handler always receives exactly the body
bytes the client sent; and when the response body is captured, the response
delivered to the client keeps the status code and the concatenated body
bytes (indeed the very chunk sequence), while its headers are the handler's
headers with any repeated name collapsed to its first occurrence — exact
header equality holds whenever no header name repeats. -/
theorem C2_amended_body_replay_and_headers
    (logRB logRespB : Bool) (method : String) (clientBody : List Nat)
    (r : MwResponse) :
    downstreamRequestBody logRB method clientBody = clientBody ∧
    (shouldCaptureResponseBody logRespB r = true →
      (middlewareResponse logRespB r).statusCode = r.statusCode ∧
      (middlewareResponse logRespB r).chunks = r.chunks ∧
      (middlewareResponse logRespB r).chunks.flatten = r.chunks.flatten ∧
      (middlewareResponse logRespB r).headers = dedupKeysKeepFirst r.headers ∧
      ((r.headers.map Prod.fst).Nodup →
        (middlewareResponse logRespB r).headers = r.headers)) := by
  constructor
  · unfold downstreamRequestBody captureRequestBody
    by_cases hc : (logRB &&
        (method == "POST" || method == "PUT" || method == "PATCH")) = true
    · rw [if_pos hc]
    · rw [if_neg hc]
  · intro h
    unfold middlewareResponse
    rw [if_pos h]
    exact ⟨rfl, rfl, rfl, rfl, fun hnd => by
      show dedupKeysKeepFirst r.headers = r.headers
      exact dedupKeysKeepFirst_of_nodup r.headers hnd⟩

/-- Witness for C2 as amended, at a captured `text/plain` response with
distinct header names and a POST request body. -/
theorem C2_amended_witness :
    downstreamRequestBody true "POST" [104, 105] = [104, 105] ∧
    (shouldCaptureResponseBody true
        ⟨200, [("content-type", "text/plain"), ("x-a", "1")], [[1], [2]]⟩ = true ∧
      (middlewareResponse true
        ⟨200, [("content-type", "text/plain"), ("x-a", "1")], [[1], [2]]⟩).headers =
        [("content-type", "text/plain"), ("x-a", "1")]) := by
  have h := C2_amended_body_replay_and_headers true true "POST" [104, 105]
    ⟨200, [("content-type", "text/plain"), ("x-a", "1")], [[1], [2]]⟩
  refine ⟨h.1, by decide, ?_⟩
  exact (h.2 (by decide)).2.2.2.2 (by decide)

/-- C2 counterexample: a captured JSON response carrying two `set-cookie`
headers does not keep "the same headers": the rebuilt response drops the
second cookie. -/
theorem C2_counterexample_duplicate_headers :
    shouldCaptureResponseBody true
      ⟨200, [("content-type", "application/json"), ("set-cookie", "a=1"),
        ("set-cookie", "b=2")], [[123]]⟩ = true ∧
    (middlewareResponse true
      ⟨200, [("content-type", "application/json"), ("set-cookie", "a=1"),
        ("set-cookie", "b=2")], [[123]]⟩).headers ≠
      [("content-type", "application/json"), ("set-cookie", "a=1"),
        ("set-cookie", "b=2")] := by
  constructor <;> decide

/-! ## C3: authorization redaction in the request log
(src/middleware/logging_middleware.py 88-94 and 114-133)

The captured headers are `{k: v for k, v in request.headers.raw}` (ASGI raw
headers: lowercase names, possibly repeated; the comprehension keeps the
first-occurrence order and the last value).  If `authorization` is present
its value is replaced by `"Bearer [REDACTED]"`.  The single request log line
is the `" | "`-join of the parts built in lines 114-133. -/

/-- Python dict comprehension over header pairs: first-occurrence order,
last value wins. -/
def dictOfPairs (ps : List (String × String)) : List (String × String) :=
  ps.foldl (fun acc p =>
    if (lookupA p.1 acc).isSome then
      acc.map (fun q => if q.1 = p.1 then (q.1, p.2) else q)
    else acc ++ [p]) []

/-- Lines 92-94: redact the `authorization` entry when present. -/
def redactAuthHeader (hs : List (String × String)) : List (String × String) :=
  if (lookupA "authorization" hs).isSome then
    hs.map (fun p => if p.1 = "authorization" then (p.1, "Bearer [REDACTED]") else p)
  else hs

/-- Header names kept in the logged `important_headers` (line 125). -/
def importantHeaderKeys : List String :=
  ["content-type", "user-agent", "authorization", "accept"]

/-- Line 125: keep only the important headers. -/
def importantHeaders (hs : List (String × String)) : List (String × String) :=
  hs.filter (fun p => importantHeaderKeys.contains (lowerS p.1))

/-- One character of a `json.dumps` string literal (`ensure_ascii=False`). -/
def jsonEscapeChar (c : Char) : List Char :=
  if c = '"' then ['\\', '"']
  else if c = '\\' then ['\\', '\\']
  else if c = '\n' then ['\\', 'n']
  else if c = '\r' then ['\\', 'r']
  else if c = '\t' then ['\\', 't']
  else if c = Char.ofNat 8 then ['\\', 'b']
  else if c = Char.ofNat 12 then ['\\', 'f']
  else if c.toNat < 32 then
    ['\\', 'u', '0', '0',
      (if c.toNat / 16 < 10 then Char.ofNat (48 + c.toNat / 16)
       else Char.ofNat (87 + c.toNat / 16)),
      (if c.toNat % 16 < 10 then Char.ofNat (48 + c.toNat % 16)
       else Char.ofNat (87 + c.toNat % 16))]
  else [c]

/-- A `json.dumps` string literal. -/
def jsonString (s : String) : String :=
  String.mk ('"' :: ((s.data.map jsonEscapeChar).flatten ++ ['"']))

/-- The `json.dumps` of a flat string-to-string dict
(`ensure_ascii=False`, default separators). -/
def jsonObject (ps : List (String × String)) : String :=
  "\x7b" ++
    String.intercalate ", "
      (ps.map (fun p => jsonString p.1 ++ ": " ++ jsonString p.2)) ++
  "\x7d"

/-- Python `" | ".join(parts)`. -/
def pyJoin (sep : String) : List String → String
  | [] => ""
  | [p] => p
  | p :: q :: rest => p ++ sep ++ pyJoin sep (q :: rest)

/-- The single request log line of lines 114-133.  `queryParams` is the
already-built `dict(request.query_params)`; `renderedBody` is the rendering
of the captured request body from lines 96-112 and 130 (`none` when the body
is not captured — method not POST/PUT/PATCH or logging disabled — or
falsy). -/
def requestLogLine (requestId method path : String)
    (queryParams rawHeaders : List (String × String))
    (renderedBody : Option String) (logHeaders logRequestBody : Bool) : String :=
  let headers := if logHeaders then redactAuthHeader (dictOfPairs rawHeaders) else []
  let parts := ["[" ++ requestId ++ "]", "请求: " ++ method ++ " " ++ path]
  let parts := parts ++
    (if queryParams.isEmpty then [] else ["查询参数: " ++ jsonObject queryParams])
  let parts := parts ++
    (if !headers.isEmpty && logHeaders then
      (let imp := importantHeaders headers
       if imp.isEmpty then [] else ["头部: " ++ jsonObject imp])
     else [])
  let parts := parts ++
    (if logRequestBody then
      (match renderedBody with
       | some b => ["体: " ++ b]
       | none => [])
     else [])
  pyJoin " | " parts

/-- Looking up a key after updating the values of a different key. -/
theorem lookupA_map_update_ne {α : Type} (a k : String) (v : α)
    (hs : List (String × α)) (h : k ≠ a) :
    lookupA k (hs.map (fun p => if p.1 = a then (p.1, v) else p)) =
      lookupA k hs := by
  induction hs with
  | nil => rfl
  | cons p t ih =>
    by_cases hp : p.1 = a
    · have hak : ¬ a = k := fun hc => h hc.symm
      simp [lookupA, hp, hak, ih]
    · by_cases hk : p.1 = k
      · simp [lookupA, hp, hk, h]
      · simp [lookupA, hp, hk, ih]

/-- Looking up the updated key: present keys receive the new value. -/
theorem lookupA_map_update_self {α : Type} (a : String) (v : α)
    (hs : List (String × α)) :
    lookupA a (hs.map (fun p => if p.1 = a then (p.1, v) else p)) =
      match lookupA a hs with
      | none => none
      | some _ => some v := by
  induction hs with
  | nil => rfl
  | cons p t ih =>
    by_cases hp : p.1 = a
    · simp [lookupA, hp]
    · simp [lookupA, hp, ih]

/-- C3 as amended: when the captured headers hold an `authorization` value,
the value logged for that key is the literal `"Bearer [REDACTED]"`, and the
redaction changes no entry other than `authorization` — every other logged
header value is exactly the client-sent one, so the token value can still
appear in the emitted log line when it also occurs in another captured
header value, a query parameter, or the request body. -/
theorem C3_amended_redaction_only_auth
    (raw : List (String × String)) (tok : String)
    (h : lookupA "authorization" (dictOfPairs raw) = some tok) :
    lookupA "authorization" (redactAuthHeader (dictOfPairs raw)) =
      some "Bearer [REDACTED]" ∧
    ∀ k, k ≠ "authorization" →
      lookupA k (redactAuthHeader (dictOfPairs raw)) =
        lookupA k (dictOfPairs raw) := by
  have hsome : (lookupA "authorization" (dictOfPairs raw)).isSome := by
    rw [h]; rfl
  constructor
  · unfold redactAuthHeader
    rw [if_pos hsome, lookupA_map_update_self, h]
  · intro k hk
    unfold redactAuthHeader
    rw [if_pos hsome, lookupA_map_update_ne _ _ _ _ hk]

/-- Witness for C3 as amended at concrete captured headers. -/
theorem C3_amended_witness :
    lookupA "authorization"
      (redactAuthHeader (dictOfPairs
        [("authorization", "tok123"), ("accept", "a")])) =
      some "Bearer [REDACTED]" ∧
    lookupA "accept"
      (redactAuthHeader (dictOfPairs
        [("authorization", "tok123"), ("accept", "a")])) =
      lookupA "accept" (dictOfPairs
        [("authorization", "tok123"), ("accept", "a")]) := by
  have h := C3_amended_redaction_only_auth
    [("authorization", "tok123"), ("accept", "a")] "tok123" (by decide)
  exact ⟨h.1, h.2 "accept" (by decide)⟩

/-- C3 counterexample: a GET request carrying the same token value both in
`authorization` and in `accept`.  The logged `authorization` value is
redacted, yet the token appears verbatim in the emitted request log line
(inside the logged `accept` header), so the claim's "does not appear
anywhere in the emitted request log line" is false. -/
theorem C3_counterexample_token_in_line :
    lookupA "authorization"
      (importantHeaders (redactAuthHeader (dictOfPairs
        [("authorization", "tok123secret"), ("accept", "tok123secret")]))) =
      some "Bearer [REDACTED]" ∧
    strContainsSub
      (requestLogLine "r" "GET" "/api/auth/user" []
        [("authorization", "tok123secret"), ("accept", "tok123secret")]
        none true true)
      "tok123secret" = true := by
  constructor <;> decide

/-! ## C8: CodeGenerator.should_delete_file
(src/routes/websocket_api.py 241-277)

The function lowercases both arguments, returns `False` when the file name
does not occur in the output, then checks three signals in order: a deletion
keyword whose first occurrence is within 200 characters of the file name's
first occurrence; the regex `---\s+<file>\s*?\n\s*?\+\+\+\s+/dev/null`
(the file name is `re.escape`d, so a literal); and the ```diff fenced blocks
found by `re.findall(r"` ``` `diff(.*?)` ``` `", ..., re.DOTALL)`, any of
which mentioning both the file name and `/dev/null`.  The regex matchers are
embedded with explicit backtracking; `\s` is the ASCII whitespace class
(sufficient for the inputs compared against). -/

/-- ASCII `\s`. -/
def wsChar (c : Char) : Bool :=
  c = ' ' || c = '\t' || c = '\n' || c = '\r' || c = Char.ofNat 11 || c = Char.ofNat 12

/-- Python `str.lower()` on character lists (ASCII case mapping). -/
def lowerL (l : List Char) : List Char :=
  l.map Char.toLower

/-- Match `\s+` then continue with `k`, backtracking over the run length. -/
def wsPlusThen (k : List Char → Bool) : List Char → Bool
  | [] => false
  | c :: t => wsChar c && (k t || wsPlusThen k t)

/-- Match `\s*` then continue with `k`, backtracking over the run length. -/
def wsStarThen (k : List Char → Bool) : List Char → Bool
  | [] => k []
  | c :: t => k (c :: t) || (wsChar c && wsStarThen k t)

/-- The literal `---`. -/
def threeDashes : List Char := ['-', '-', '-']

/-- The literal `+++`. -/
def threePlus : List Char := ['+', '+', '+']

/-- The literal `/dev/null`. -/
def devNullLit : List Char := ['/', 'd', 'e', 'v', '/', 'n', 'u', 'l', 'l']

/-- A backtick (written by code point to keep it out of the source text). -/
def btick : Char := Char.ofNat 96

/-- The opening fence of a diff block. -/
def openFence : List Char := [btick, btick, btick, 'd', 'i', 'f', 'f']

/-- The closing fence of a diff block. -/
def closeFence : List Char := [btick, btick, btick]

/-- Tail of the deletion regex after the newline and optional whitespace:
`\+\+\+\s+/dev/null`. -/
def matchTail3 (t5 : List Char) : Bool :=
  startsWithL threePlus t5 &&
    wsPlusThen (fun t6 => startsWithL devNullLit t6) (t5.drop 3)

/-- Tail of the deletion regex after the file name and optional whitespace:
a newline, then `\s*?` and the `+++` tail. -/
def matchTail2 : List Char → Bool
  | '\n' :: t4 => wsStarThen matchTail3 t4
  | _ => false

/-- Tail of the deletion regex after `---` and the mandatory whitespace: the
literal file name, then `\s*?` and the newline tail. -/
def matchAfterFile (f t1 : List Char) : Bool :=
  startsWithL f t1 && wsStarThen matchTail2 (t1.drop f.length)

/-- Matcher, anchored at the current position, for the deletion regex of
line 265: `---`, one or more `\s`, the literal file name, `\s*?`, a newline,
`\s*?`, `+++`, one or more `\s`, `/dev/null`. -/
def matchDiffDeletionAt (f cs : List Char) : Bool :=
  startsWithL threeDashes cs && wsPlusThen (matchAfterFile f) (cs.drop 3)

/-- `re.search` of the deletion regex: try the matcher at every position. -/
def searchDiffDeletion (f : List Char) : List Char → Bool
  | [] => matchDiffDeletionAt f []
  | c :: t => matchDiffDeletionAt f (c :: t) || searchDiffDeletion f t

/-- Split `s` at the first occurrence of `pat`: the part before it and the
part after it, `none` when `pat` does not occur. -/
def splitAtFirst (pat : List Char) : List Char → Option (List Char × List Char)
  | [] => if startsWithL pat [] then some ([], []) else none
  | c :: t =>
    if startsWithL pat (c :: t) then some ([], (c :: t).drop pat.length)
    else
      match splitAtFirst pat t with
      | some (b, r) => some (c :: b, r)
      | none => none

/-- The scan of `re.findall(r"` ``` `diff(.*?)` ``` `", s, re.DOTALL)`: find the
next opening fence, capture (non-greedily) up to the next closing fence,
resume after it.  The fuel argument bounds the recursion; each round
consumes at least the two fences, so `s.length` is always enough. -/
def extractDiffBlocksFuel : Nat → List Char → List (List Char)
  | 0, _ => []
  | n + 1, s =>
    match splitAtFirst openFence s with
    | none => []
    | some (_, rest) =>
      match splitAtFirst closeFence rest with
      | none => []
      | some (block, rest2) => block :: extractDiffBlocksFuel n rest2

/-- The captured contents of the ```diff blocks of `s`, in order. -/
def extractDiffBlocks (s : List Char) : List (List Char) :=
  extractDiffBlocksFuel s.length s

/-- The deletion keywords of line 251 (already lowercase in the source). -/
def deleteKeywords : List (List Char) :=
  ["remove".data, "delete".data, "删除".data, "清除".data, "移除".data,
    "去掉".data, "不需要".data]

/-- The keyword loop of lines 251-260: some deletion keyword occurs, and its
first occurrence is within (strictly) 200 characters of the file name's
first occurrence. -/
def keywordNearFile (f o : List Char) : Bool :=
  deleteKeywords.any (fun kw =>
    containsSubL kw o &&
      decide (((firstIdxL f o : Int) - (firstIdxL kw o : Int)).natAbs < 200))

/-- The diff-block loop of lines 271-275. -/
def diffBlockMentions (f o : List Char) : Bool :=
  (extractDiffBlocks o).any (fun b =>
    containsSubL f b && containsSubL devNullLit b)

/-- Embedding of `CodeGenerator.should_delete_file` (lines 241-277). -/
def should_delete_file (fileName aiOutput : String) : Bool :=
  let f := lowerL fileName.data
  let o := lowerL aiOutput.data
  if !(containsSubL f o) then false
  else if keywordNearFile f o then true
  else if searchDiffDeletion f o then true
  else if diffBlockMentions f o then true
  else false

/-- The Git-diff deletion header of the claim: `--- <file>` with
`+++ /dev/null` on the next line. -/
def diffDeletionHeader (f : List Char) : List Char :=
  threeDashes ++ (' ' :: f) ++ ('\n' :: (threePlus ++ (' ' :: devNullLit)))

/-- The Boolean prefix test agrees with `List.IsPrefix`. -/
theorem startsWithL_iff (pat s : List Char) :
    startsWithL pat s = true ↔ pat <+: s := by
  induction pat generalizing s with
  | nil => simp [startsWithL]
  | cons a as ih =>
    cases s with
    | nil => simp [startsWithL]
    | cons b bs =>
      rw [startsWithL, Bool.and_eq_true, beq_iff_eq, ih, List.cons_prefix_cons]

/-- A prefix test on an exact prefix succeeds. -/
theorem startsWithL_self (pat r : List Char) :
    startsWithL pat (pat ++ r) = true :=
  (startsWithL_iff pat (pat ++ r)).mpr ⟨r, rfl⟩

/-- The Boolean substring test agrees with `List.IsInfix`. -/
theorem containsSubL_iff (pat s : List Char) :
    containsSubL pat s = true ↔ pat <:+: s := by
  induction s with
  | nil =>
    rw [containsSubL, startsWithL_iff]
    simp
  | cons c t ih =>
    rw [containsSubL, Bool.or_eq_true, startsWithL_iff, ih, List.infix_cons_iff]

/-- Splitting at the first occurrence recovers the original list. -/
theorem splitAtFirst_eq (pat : List Char) :
    ∀ s b r, splitAtFirst pat s = some (b, r) → s = b ++ (pat ++ r) := by
  intro s
  induction s with
  | nil =>
    intro b r h
    rw [splitAtFirst] at h
    by_cases hs : startsWithL pat [] = true
    · rw [if_pos hs] at h
      cases h
      cases pat with
      | nil => rfl
      | cons a as => cases hs
    · rw [if_neg hs] at h
      cases h
  | cons c t ih =>
    intro b r h
    rw [splitAtFirst] at h
    by_cases hs : startsWithL pat (c :: t) = true
    · rw [if_pos hs] at h
      cases h
      rcases (startsWithL_iff pat (c :: t)).mp hs with ⟨tail, htail⟩
      rw [List.nil_append, ← htail, List.drop_left]
    · rw [if_neg hs] at h
      cases hsp : splitAtFirst pat t with
      | none => rw [hsp] at h; cases h
      | some pr =>
        obtain ⟨b1, r1⟩ := pr
        rw [hsp] at h
        cases h
        rw [List.cons_append, ← ih b1 _ hsp]

/-- Every block found by the fenced-diff scan is a substring of the scanned
text. -/
theorem extractDiffBlocksFuel_isSub (n : Nat) :
    ∀ s b, b ∈ extractDiffBlocksFuel n s → b <:+: s := by
  induction n with
  | zero => intro s b h; cases h
  | succ n ih =>
    intro s b h
    rw [extractDiffBlocksFuel] at h
    cases h1 : splitAtFirst openFence s with
    | none => rw [h1] at h; simp at h
    | some pr1 =>
      obtain ⟨pre, rest⟩ := pr1
      rw [h1] at h
      replace h : b ∈
          (match splitAtFirst closeFence rest with
           | none => []
           | some (block, rest2) => block :: extractDiffBlocksFuel n rest2) := h
      cases h2 : splitAtFirst closeFence rest with
      | none => rw [h2] at h; simp at h
      | some pr2 =>
        obtain ⟨block, rest2⟩ := pr2
        rw [h2] at h
        replace h : b ∈ block :: extractDiffBlocksFuel n rest2 := h
        have e1 := splitAtFirst_eq openFence s pre rest h1
        have e2 := splitAtFirst_eq closeFence rest block rest2 h2
        rcases List.mem_cons.mp h with rfl | hmem
        · refine ⟨pre ++ openFence, closeFence ++ rest2, ?_⟩
          rw [e1, e2]
          simp [List.append_assoc]
        · have hb2 := ih rest2 b hmem
          have : rest2 <:+: s := by
            refine ⟨pre ++ openFence ++ block ++ closeFence, [], ?_⟩
            rw [e1, e2]
            simp [List.append_assoc]
          exact hb2.trans this

/-- Every block found on `s` is a substring of `s`. -/
theorem extractDiffBlocks_isSub (s b : List Char) (h : b ∈ extractDiffBlocks s) :
    b <:+: s :=
  extractDiffBlocksFuel_isSub s.length s b h

/-- A successful anchored match at some position makes the search succeed. -/
theorem searchDiffDeletion_of_matchAt (f rest : List Char)
    (h : matchDiffDeletionAt f rest = true) :
    ∀ u, searchDiffDeletion f (u ++ rest) = true := by
  intro u
  induction u with
  | nil =>
    rw [List.nil_append]
    cases rest with
    | nil => rw [searchDiffDeletion]; exact h
    | cons c t => rw [searchDiffDeletion, h]; rfl
  | cons c u2 ih =>
    rw [List.cons_append, searchDiffDeletion, ih, Bool.or_true]

/-- Matching with no whitespace consumed by a `\s*` group. -/
theorem wsStarThen_now (k : List Char → Bool) (s : List Char) (h : k s = true) :
    wsStarThen k s = true := by
  cases s with
  | nil => rw [wsStarThen]; exact h
  | cons c t => rw [wsStarThen, h]; rfl

/-- Dropping a literal `---` prefix. -/
theorem threeDashes_append_drop (X : List Char) :
    (threeDashes ++ X).drop 3 = X := rfl

/-- The anchored matcher accepts the claim's deletion header (followed by
anything) with the file name placed literally after `--- `. -/
theorem matchDiffDeletionAt_header (f v : List Char) :
    matchDiffDeletionAt f (diffDeletionHeader f ++ v) = true := by
  have h2 : wsStarThen matchTail2
      ('\n' :: (threePlus ++ (' ' :: (devNullLit ++ v)))) = true := rfl
  have h1 : matchAfterFile f
      (f ++ ('\n' :: (threePlus ++ (' ' :: (devNullLit ++ v))))) = true := by
    rw [matchAfterFile, startsWithL_self, Bool.true_and, List.drop_left]
    exact h2
  have h0 : wsPlusThen (matchAfterFile f)
      (' ' :: (f ++ ('\n' :: (threePlus ++ (' ' :: (devNullLit ++ v)))))) = true := by
    rw [wsPlusThen, h1]
    rfl
  have hshape : diffDeletionHeader f ++ v =
      threeDashes ++
        (' ' :: (f ++ ('\n' :: (threePlus ++ (' ' :: (devNullLit ++ v)))))) := by
    simp [diffDeletionHeader, List.append_assoc, List.cons_append]
  rw [hshape, matchDiffDeletionAt, startsWithL_self, Bool.true_and,
    threeDashes_append_drop]
  exact h0

/-- The file name is a substring of the claim's deletion header. -/
theorem file_in_header (f : List Char) : f <:+: diffDeletionHeader f := by
  refine ⟨threeDashes ++ [' '], '\n' :: (threePlus ++ (' ' :: devNullLit)), ?_⟩
  simp [diffDeletionHeader, List.append_assoc, List.cons_append]

/-- Boolean-level unfolding of `should_delete_file`. -/
theorem should_delete_file_eq (fileName aiOutput : String) :
    should_delete_file fileName aiOutput =
      (containsSubL (lowerL fileName.data) (lowerL aiOutput.data) &&
        (keywordNearFile (lowerL fileName.data) (lowerL aiOutput.data) ||
         searchDiffDeletion (lowerL fileName.data) (lowerL aiOutput.data) ||
         diffBlockMentions (lowerL fileName.data) (lowerL aiOutput.data))) := by
  unfold should_delete_file
  cases hc : containsSubL (lowerL fileName.data) (lowerL aiOutput.data) <;>
    cases hk : keywordNearFile (lowerL fileName.data) (lowerL aiOutput.data) <;>
      cases hs : searchDiffDeletion (lowerL fileName.data) (lowerL aiOutput.data) <;>
        cases hd : diffBlockMentions (lowerL fileName.data) (lowerL aiOutput.data) <;>
          simp [hc, hk, hs, hd]

/-- C8: `should_delete_file(file_name, ai_output)` returns `False` whenever
the file name does not occur case-insensitively in the output; and it
returns `True` whenever the lowercased output contains the Git-diff deletion
header `--- <file>` followed on the next line by `+++ /dev/null`, or some
```diff fenced block of the lowercased output mentions both the file name
and `/dev/null`, or a deletion keyword occurs whose first occurrence lies
within 200 characters (strictly) of the file name's first occurrence. -/
theorem C8_should_delete_file_cases (fileName aiOutput : String) :
    (containsSubL (lowerL fileName.data) (lowerL aiOutput.data) = false →
      should_delete_file fileName aiOutput = false) ∧
    (containsSubL (diffDeletionHeader (lowerL fileName.data))
        (lowerL aiOutput.data) = true →
      should_delete_file fileName aiOutput = true) ∧
    ((∃ b ∈ extractDiffBlocks (lowerL aiOutput.data),
        containsSubL (lowerL fileName.data) b = true ∧
        containsSubL devNullLit b = true) →
      should_delete_file fileName aiOutput = true) ∧
    ((∃ kw ∈ deleteKeywords,
        containsSubL kw (lowerL aiOutput.data) = true ∧
        ((firstIdxL (lowerL fileName.data) (lowerL aiOutput.data) : Int) -
          (firstIdxL kw (lowerL aiOutput.data) : Int)).natAbs < 200) →
      containsSubL (lowerL fileName.data) (lowerL aiOutput.data) = true →
      should_delete_file fileName aiOutput = true) := by
  refine ⟨fun h => ?_, fun h => ?_, fun h => ?_, fun h hin => ?_⟩
  · rw [should_delete_file_eq, h]
    rfl
  · have hinf : diffDeletionHeader (lowerL fileName.data) <:+: lowerL aiOutput.data :=
      (containsSubL_iff _ _).mp h
    have hin : containsSubL (lowerL fileName.data) (lowerL aiOutput.data) = true :=
      (containsSubL_iff _ _).mpr ((file_in_header (lowerL fileName.data)).trans hinf)
    rcases hinf with ⟨u, w, huw⟩
    have hsearch : searchDiffDeletion (lowerL fileName.data) (lowerL aiOutput.data)
        = true := by
      rw [← huw, List.append_assoc]
      exact searchDiffDeletion_of_matchAt _ _
        (matchDiffDeletionAt_header (lowerL fileName.data) w) u
    rw [should_delete_file_eq, hin, hsearch]
    simp
  · rcases h with ⟨b, hb, hf, hdn⟩
    have hin : containsSubL (lowerL fileName.data) (lowerL aiOutput.data) = true :=
      (containsSubL_iff _ _).mpr
        (((containsSubL_iff _ _).mp hf).trans
          (extractDiffBlocks_isSub (lowerL aiOutput.data) b hb))
    have hd : diffBlockMentions (lowerL fileName.data) (lowerL aiOutput.data)
        = true :=
      List.any_eq_true.mpr ⟨b, hb, by rw [hf, hdn]; rfl⟩
    rw [should_delete_file_eq, hin, hd]
    simp
  · rcases h with ⟨kw, hkw, hocc, hnear⟩
    have hk : keywordNearFile (lowerL fileName.data) (lowerL aiOutput.data)
        = true :=
      List.any_eq_true.mpr ⟨kw, hkw, by rw [hocc, decide_eq_true hnear]; rfl⟩
    rw [should_delete_file_eq, hin, hk]
    simp

/-- Witness for C8 on four concrete inputs, one per clause. -/
theorem C8_should_delete_file_witness :
    should_delete_file "a.py" "hello world" = false ∧
    should_delete_file "a.py" "--- a.py\n+++ /dev/null" = true ∧
    should_delete_file "a.py" "```diff\na.py => /dev/null\n```" = true ∧
    should_delete_file "a.py" "please remove a.py now" = true := by
  refine ⟨(C8_should_delete_file_cases "a.py" "hello world").1 (by decide),
    (C8_should_delete_file_cases "a.py" "--- a.py\n+++ /dev/null").2.1 (by decide),
    (C8_should_delete_file_cases "a.py" "```diff\na.py => /dev/null\n```").2.2.1
      ⟨("\na.py => /dev/null\n").data, by decide, by decide, by decide⟩,
    (C8_should_delete_file_cases "a.py" "please remove a.py now").2.2.2
      ⟨("remove").data, by decide, by decide, by decide⟩ (by decide)⟩

end GptEng
